import Mathlib

/-!
# RealtyLens — verification of spec claims against the source

Shallow embedding of the claim-relevant parts of the RealtyLens pipeline:

* `include/scripts/property_extractor.py` — the paginated Rentcast
  extraction loop (`RentcastExtractor.fetch_listings`), the per-category
  orchestration (`run_extraction`) and the task wrapper
  (`extract_property_data`).
* `dags/realtylens_ml_dag.py` — the training-side row filtering
  (`is_active` metadata), the engineered `bath_to_bed_ratio` feature and
  the IQR outlier filter on the target column.
* `include/scripts/rent_price_predictor.py` — the batch predictor
  (`predict_rent_prices`) with its delete-then-insert table update, and
  the heuristic fallback (`simplified_prediction`).

Machine floats from pandas/SQL are modelled as exact rationals (`ℚ`);
`NaN`/`NULL` cells are modelled as `Option` `none`. Python exceptions are
modelled with `Except` where the code can raise, and total functions where
the code catches every exception (the pagination loop catches all).
-/

namespace RealtyLens

/-! ## Paginated listing extractor (`property_extractor.py`)

`fetch_listings` runs `while api_calls < max_calls`, makes one HTTP call
per iteration, and then:
* a non-200 status (or any exception while requesting/parsing) breaks the
  loop without touching the accumulator;
* an empty item list (`if not listings`) breaks without extending;
* otherwise the items are appended, and a short page
  (`len(listings) < params['limit']`) breaks after the append;
* a full page advances the offset and loops.

The stream of API responses is a function from the call index to a
response; an `error` response stands for both a non-200 status and an
exception raised during the call. -/

/-- One API response: a non-success status / raised exception, or a parsed
page of items. -/
inductive ApiResponse (α : Type) where
  | error : ApiResponse α
  | page (items : List α) : ApiResponse α
deriving DecidableEq

/-- Whether a response carries a parsed item page at all (a non-success
status carries none). -/
def ApiResponse.isPage {α : Type} : ApiResponse α → Bool
  | .page _ => true
  | .error => false

/-- The requested page size (`"limit": 500`). -/
def pageLimit : Nat := 500

/-- The hard call budget (`max_calls=20`). -/
def budget : Nat := 20

/-- The body of the `while api_calls < max_calls` loop of
`RentcastExtractor.fetch_listings`, with the remaining budget as fuel and
the accumulator `all_listings` passed explicitly. -/
def fetchLoop {α : Type} (responses : Nat → ApiResponse α) (limit : Nat) :
    Nat → Nat → List α → List α
  | _, 0, acc => acc
  | callIdx, fuel + 1, acc =>
    match responses callIdx with
    | .error => acc
    | .page items =>
      if items.length = 0 then acc
      else if items.length < limit then acc ++ items
      else fetchLoop responses limit (callIdx + 1) fuel (acc ++ items)

/-- `RentcastExtractor.fetch_listings`: accumulate pages starting from
offset 0 with the full budget and an empty accumulator. The function is
total — the Python loop catches every exception, so it never raises. -/
def fetch_listings {α : Type} (responses : Nat → ApiResponse α) : List α :=
  fetchLoop responses pageLimit 0 budget []

/-- Number of API calls the loop makes before halting (each iteration does
`api_calls += 1` right after the request). -/
def callsLoop {α : Type} (responses : Nat → ApiResponse α) (limit : Nat) :
    Nat → Nat → Nat
  | _, 0 => 0
  | callIdx, fuel + 1 =>
    match responses callIdx with
    | .error => 1
    | .page items =>
      if items.length = 0 then 1
      else if items.length < limit then 1
      else 1 + callsLoop responses limit (callIdx + 1) fuel

/-- Calls made by a full `fetch_listings` run. -/
def apiCallsMade {α : Type} (responses : Nat → ApiResponse α) : Nat :=
  callsLoop responses pageLimit 0 budget

/-! ## Per-category orchestration and the task wrapper

`run_extraction` builds a dict with a `sales_path` entry when the sale
fetch returned anything and a `rental_path` entry when the rental fetch
did; the stored value is whatever `save_to_s3` returned (a path string, or
`None` when the S3 write failed). `extract_property_data` raises when the
dict is empty. -/

/-- `RentcastExtractor.run_extraction`, parameterised by the two fetched
lists and by the result of `save_to_s3` for each listing type. -/
def run_extraction {α : Type} (salesListings rentalListings : List α)
    (saveResult : String → Option String) : List (String × Option String) :=
  (if salesListings.isEmpty then [] else [("sales_path", saveResult "sales")]) ++
  (if rentalListings.isEmpty then [] else [("rental_path", saveResult "rental")])

/-- `extract_property_data`: raises `Exception("Extraction returned no
results")` when the result dict is empty, otherwise returns it. -/
def extract_property_data {α : Type} (salesListings rentalListings : List α)
    (saveResult : String → Option String) :
    Except String (List (String × Option String)) :=
  let results := run_extraction salesListings rentalListings saveResult
  if results.isEmpty then Except.error "Extraction returned no results"
  else Except.ok results

/-! ## Training-side row handling (`realtylens_ml_dag.py`)

The feature store's `METADATA` column holds a JSON string per row. The
trainer extracts
`df['is_active'] = metadata.apply(lambda x: json.loads(x).get('is_active') if x else True)`
and then keeps `df[df['is_active'] == True]`. A JSON value is modelled by
`JVal`; a missing/empty metadata cell (Python-falsy `x`) is `none`, and a
present metadata cell is `some` association list of its object fields. -/

/-- A JSON scalar value as produced by `json.loads` for a metadata field. -/
inductive JVal where
  | jnull : JVal
  | jbool (b : Bool) : JVal
  | jnum (n : Int) : JVal
  | jstr (s : String) : JVal
deriving DecidableEq

/-- Python/pandas elementwise `value == True`: `True == True`, and the
integer `1 == True`; `None`, strings and every other value compare
unequal to `True`. -/
def pandasEqTrue : JVal → Bool
  | .jbool b => b
  | .jnum n => n == 1
  | _ => false

/-- The extracted `is_active` cell:
`json.loads(x).get('is_active') if x else True`. A Python-falsy metadata
cell defaults the value to `True`; otherwise a dictionary lookup that can
yield `None` (`JVal.jnull`) when the key is absent. -/
def extractIsActive (metadata : Option (List (String × JVal))) : JVal :=
  match metadata with
  | none => .jbool true
  | some obj => (obj.lookup "is_active").getD .jnull

/-- Whether `df[df['is_active'] == True]` keeps the row. -/
def trainRowKept (metadata : Option (List (String × JVal))) : Bool :=
  pandasEqTrue (extractIsActive metadata)

/-! ## Engineered feature: bath-to-bed ratio

Both the trainer (`realtylens_ml_dag.py`) and the predictor
(`rent_price_predictor.py`) apply, row-wise,
`bathrooms / bedrooms if pd.notnull(bedrooms) and bedrooms > 0 and pd.notnull(bathrooms) else np.nan`.
`NaN` cells are `none`. -/

/-- The trainer's row lambda for `bath_to_bed_ratio`
(`realtylens_ml_dag.py`, inside `train_rent_price_model`). -/
def bathToBedRatioTrain (bathrooms bedrooms : Option ℚ) : Option ℚ :=
  match bedrooms, bathrooms with
  | some bd, some bt => if 0 < bd then some (bt / bd) else none
  | _, _ => none

/-- The predictor's row lambda for `bath_to_bed_ratio`
(`rent_price_predictor.py`, inside `predict_rent_prices`); textually the
same expression as the trainer's. -/
def bathToBedRatioPred (bathrooms bedrooms : Option ℚ) : Option ℚ :=
  match bedrooms, bathrooms with
  | some bd, some bt => if 0 < bd then some (bt / bd) else none
  | _, _ => none

/-! ## IQR filter on the target column

`df_modeling['rent_price'].quantile(q)` is pandas' linearly interpolated
quantile over the non-`NaN` values. The filter keeps the rows satisfying
`(rent_price >= rent_lower) & (rent_price <= rent_upper)`; a `NaN`
target compares `False` on both sides and is dropped. The branch runs
only when the column has at least one non-null value, else the trainer
raises `ValueError`. -/

/-- Linearly interpolated quantile of a list of rationals (the pandas
default interpolation): sort, take `h = q·(n−1)`, and interpolate between
the neighbouring order statistics. Returns `0` on an empty list — callers
guard against that case. -/
def quantileLinear (xs : List ℚ) (q : ℚ) : ℚ :=
  let s := xs.insertionSort (· ≤ ·)
  if s.isEmpty then 0
  else
    let n := s.length
    let h := q * ((n : ℚ) - 1)
    let i := h.floor.toNat
    let lo := s.getD i 0
    let hi := s.getD (i + 1) lo
    lo + (h - (i : ℚ)) * (hi - lo)

/-- A modelling-frame row: the (possibly `NaN`) `rent_price` target
together with the rest of the row, opaque to the filter. -/
abbrev TrainRow (α : Type) := Option ℚ × α

/-- `rent_q1 = df_modeling['rent_price'].quantile(0.25)` over the
pre-filter target distribution (pandas skips `NaN`, hence `filterMap`). -/
def rentQ1 {α : Type} (rows : List (TrainRow α)) : ℚ :=
  quantileLinear (rows.filterMap Prod.fst) (1/4)

/-- `rent_q3 = df_modeling['rent_price'].quantile(0.75)`. -/
def rentQ3 {α : Type} (rows : List (TrainRow α)) : ℚ :=
  quantileLinear (rows.filterMap Prod.fst) (3/4)

/-- `rent_lower = rent_q1 - 1.5 * rent_iqr`. -/
def rentLower {α : Type} (rows : List (TrainRow α)) : ℚ :=
  rentQ1 rows - 1.5 * (rentQ3 rows - rentQ1 rows)

/-- `rent_upper = rent_q3 + 1.5 * rent_iqr`. -/
def rentUpper {α : Type} (rows : List (TrainRow α)) : ℚ :=
  rentQ3 rows + 1.5 * (rentQ3 rows - rentQ1 rows)

/-- The target-outlier step of `train_rent_price_model`: compute
`Q1 = quantile(0.25)`, `Q3 = quantile(0.75)` on the pre-filter target
distribution and keep the rows satisfying
`(rent_price >= rent_lower) & (rent_price <= rent_upper)` (a `NaN`
target compares `False` on both sides and is dropped); raise
`ValueError` when the target column has no non-null value. -/
def iqrFilterTarget {α : Type} (rows : List (TrainRow α)) :
    Except String (List (TrainRow α)) :=
  if (rows.filterMap Prod.fst).isEmpty then
    Except.error "Target variable rent_price is missing or contains only NaN values."
  else
    Except.ok (rows.filter (fun r =>
      match r.1 with
      | some x => decide (rentLower rows ≤ x) && decide (x ≤ rentUpper rows)
      | none => false))

/-! ## Batch predictor table update (`rent_price_predictor.py`)

`predict_rent_prices` either loads a model from the registry or, when
`load_model_from_registry` raises (no row, or a decoding failure), calls
`simplified_prediction`. Warehouse tables are modelled as lists of rows;
load dates as `Nat`; SQL `NULL` as `none`. The loaded model is abstracted
as a scoring function from a joined listing row to the predicted rent. -/

/-- A joined `FCT_SALE_LISTING` row (with the dimension columns the
predictor selects collapsed into the abstract part scored by the model). -/
structure FctRow where
  listing_sk : String
  listing_id : String
  sale_price : Option ℚ
  load_date : Nat
deriving DecidableEq

/-- A `PREDICTED_RENT_PRICES` row. -/
structure PredRow where
  listing_sk : String
  listing_id : String
  sale_price : Option ℚ
  predicted_rent_price : Option ℚ
  rent_to_price_ratio : Option ℚ
  load_date : Nat
  model_version : String
deriving DecidableEq

/-- `SELECT MAX(LOAD_DATE) FROM FCT_SALE_LISTING` — `none` on an empty
table (SQL `NULL`). -/
def maxLoadDate (fct : List FctRow) : Option Nat :=
  (fct.map FctRow.load_date).max?

/-- The prediction row the model path inserts for one listing:
`predicted_rent_price` from the model, `rent_to_price_ratio` as
`predicted / sale_price`. -/
def toModelPredRow (model : FctRow → ℚ) (version : String) (l : FctRow) :
    PredRow :=
  { listing_sk := l.listing_sk
    listing_id := l.listing_id
    sale_price := l.sale_price
    predicted_rent_price := some (model l)
    rent_to_price_ratio := l.sale_price.map (fun s => model l / s)
    load_date := l.load_date
    model_version := version }

/-- The listing query: sale listings joined to their dimensions,
restricted by `SALE_PRICE IS NOT NULL AND LOAD_DATE = max_load_date`. -/
def saleListingsAtMaxDate (fct : List FctRow) : List FctRow :=
  fct.filter (fun l =>
    l.sale_price.isSome && decide (some l.load_date = maxLoadDate fct))

/-- The model path of `predict_rent_prices` after a successful registry
load: select the sale listings of the most recent load date with a
non-null sale price; when none exist, return the table unchanged
(`"No data to process"`); otherwise delete every `PREDICTED_RENT_PRICES`
row of that load date and insert one freshly scored row per listing. -/
def modelPredict (model : FctRow → ℚ) (version : String)
    (fct : List FctRow) (predTable : List PredRow) : List PredRow :=
  let listings := saleListingsAtMaxDate fct
  if listings.isEmpty then predTable
  else
    predTable.filter (fun p => decide (some p.load_date ≠ maxLoadDate fct)) ++
      listings.map (toModelPredRow model version)

/-- The heuristic row `simplified_prediction` inserts:
`SALE_PRICE * 0.005 AS PREDICTED_RENT_PRICE`, a constant
`0.005 AS RENT_TO_PRICE_RATIO` and `'simplified-model' AS MODEL_VERSION`
(SQL: `NULL * 0.005` is `NULL`). -/
def toSimpleRow (l : FctRow) : PredRow :=
  { listing_sk := l.listing_sk
    listing_id := l.listing_id
    sale_price := l.sale_price
    predicted_rent_price := l.sale_price.map (fun s => s * 0.005)
    rent_to_price_ratio := some 0.005
    load_date := l.load_date
    model_version := "simplified-model" }

/-- `simplified_prediction`: one `INSERT … SELECT` that adds a heuristic
row for each sale listing of the most recent load date whose `LISTING_SK`
has no row anywhere in `PREDICTED_RENT_PRICES` (the `NOT EXISTS` subquery
is not restricted to the load date); nothing is deleted or updated. -/
def simplified_prediction (fct : List FctRow) (predTable : List PredRow) :
    List PredRow :=
  let maxd := maxLoadDate fct
  let inserted := (fct.filter (fun l =>
      decide (some l.load_date = maxd) &&
        !(predTable.any (fun p => p.listing_sk == l.listing_sk)))).map
    toSimpleRow
  predTable ++ inserted

/-- `predict_rent_prices`: `loaded = none` models
`load_model_from_registry` raising (no registry row, or decode failure),
in which case the `except` branch runs `simplified_prediction`; otherwise
the model path runs with the loaded model and version. -/
def predict_rent_prices (loaded : Option ((FctRow → ℚ) × String))
    (fct : List FctRow) (predTable : List PredRow) : List PredRow :=
  match loaded with
  | none => simplified_prediction fct predTable
  | some (model, version) => modelPredict model version fct predTable

/-! ## Inference feature-frame completion (`rent_price_predictor.py`,
steps 6–7)

The inference frame is an association list from column name to a column
of cells. `np.nan` (the numerical missing marker) and `None` (the
categorical one) are distinct cell values. Step 6 appends a full column
of the matching marker for every manifest feature not present; step 7 is
`X_pred[numerical_features + categorical_features]`, which raises a
`KeyError` if any selected column is absent — modelled by `Option`. -/

/-- A pandas cell for the inference frame. -/
inductive Cell where
  | nanCell : Cell
  | noneCell : Cell
  | numCell (q : ℚ) : Cell
  | strCell (s : String) : Cell
deriving DecidableEq

/-- One `for col in features: if col not in X_pred.columns: X_pred[col] = marker`
loop: append a constant column of `marker` for each feature not already
present, in order. -/
def addMissingCols (marker : Cell) (nrows : Nat) :
    List String → List (String × List Cell) → List (String × List Cell)
  | [], frame => frame
  | c :: cs, frame =>
    addMissingCols marker nrows cs
      (if (frame.lookup c).isSome then frame
       else frame ++ [(c, List.replicate nrows marker)])

/-- Step 6 of `predict_rent_prices`: back-fill missing numerical features
with `np.nan` columns, then missing categorical features with `None`
columns. -/
def ensureModelFeatures (nrows : Nat) (numerical categorical : List String)
    (frame : List (String × List Cell)) : List (String × List Cell) :=
  addMissingCols Cell.noneCell nrows categorical
    (addMissingCols Cell.nanCell nrows numerical frame)

/-- Step 7, `X_pred[numerical_features + categorical_features]`: project
the frame onto the manifest columns; `none` models the `KeyError` raised
when a selected column is absent. -/
def selectCols (frame : List (String × List Cell)) :
    List String → Option (List (String × List Cell))
  | [] => some []
  | c :: cs =>
    match frame.lookup c, selectCols frame cs with
    | some col, some rest => some ((c, col) :: rest)
    | _, _ => none

/-! ## Theorems

Batteries marks the `Rat` arithmetic operations `@[irreducible]`, which
blocks `decide`/`rfl` evaluation of the embedded functions on concrete
rational inputs; re-enable unfolding for the rest of this development. -/

attribute [local semireducible] Rat.mul Rat.inv Rat.add Rat.sub Rat.ofScientific

/-- Halting analysis of the pagination call counter: starting anywhere
with positive remaining budget, the loop makes between 1 and `fuel`
calls; at the final call it either exhausted the budget, received an
empty or short page, or received an error; and every call it continued
past returned a full, non-empty page. -/
theorem callsLoop_halting {α : Type} (responses : Nat → ApiResponse α)
    (limit : Nat) :
    ∀ (fuel callIdx : Nat), 0 < fuel →
    1 ≤ callsLoop responses limit callIdx fuel ∧
    callsLoop responses limit callIdx fuel ≤ fuel ∧
    (callsLoop responses limit callIdx fuel = fuel ∨
      (∃ items, responses (callIdx + callsLoop responses limit callIdx fuel - 1) =
          ApiResponse.page items ∧ (items.length = 0 ∨ items.length < limit)) ∨
      responses (callIdx + callsLoop responses limit callIdx fuel - 1) =
        ApiResponse.error) ∧
    (∀ k, k + 1 < callsLoop responses limit callIdx fuel →
      ∃ items, responses (callIdx + k) = ApiResponse.page items ∧
        items.length ≠ 0 ∧ ¬ items.length < limit) := by
  intro fuel
  induction fuel with
  | zero => intro _ h; omega
  | succ fuel ih =>
    intro callIdx _
    cases hres : responses callIdx with
    | error =>
      refine ⟨by simp [callsLoop, hres], by simp [callsLoop, hres], ?_, ?_⟩
      · right; right; simp [callsLoop, hres]
      · intro k hk; simp [callsLoop, hres] at hk
    | page items =>
      by_cases h0 : items.length = 0
      · refine ⟨by simp [callsLoop, hres, h0], by simp [callsLoop, hres, h0], ?_, ?_⟩
        · right; left
          exact ⟨items, by simp [callsLoop, hres, h0], Or.inl h0⟩
        · intro k hk; simp [callsLoop, hres, h0] at hk
      · by_cases hlt : items.length < limit
        · refine ⟨by simp [callsLoop, hres, h0, hlt], by simp [callsLoop, hres, h0, hlt], ?_, ?_⟩
          · right; left
            exact ⟨items, by simp [callsLoop, hres, h0, hlt], Or.inr hlt⟩
          · intro k hk; simp [callsLoop, hres, h0, hlt] at hk
        · have hunf : callsLoop responses limit callIdx (fuel + 1) =
              1 + callsLoop responses limit (callIdx + 1) fuel := by
            simp [callsLoop, hres, h0, hlt]
          by_cases hf : fuel = 0
          · subst hf
            have hn : callsLoop responses limit callIdx (0 + 1) = 1 := by
              rw [hunf]; rfl
            refine ⟨by rw [hn], by rw [hn], ?_, ?_⟩
            · left; rw [hn]
            · intro k hk; rw [hn] at hk; omega
          · obtain ⟨ih1, ih2, ih3, ih4⟩ := ih (callIdx + 1) (Nat.pos_of_ne_zero hf)
            refine ⟨by omega, by omega, ?_, ?_⟩
            · rcases ih3 with h | ⟨its, hits, hlen⟩ | herr
              · left; omega
              · right; left
                refine ⟨its, ?_, hlen⟩
                have harith : callIdx + (1 + callsLoop responses limit (callIdx + 1) fuel) - 1 =
                    callIdx + 1 + callsLoop responses limit (callIdx + 1) fuel - 1 := by omega
                rw [hunf, harith]; exact hits
              · right; right
                have harith : callIdx + (1 + callsLoop responses limit (callIdx + 1) fuel) - 1 =
                    callIdx + 1 + callsLoop responses limit (callIdx + 1) fuel - 1 := by omega
                rw [hunf, harith]; exact herr
            · intro k hk
              rw [hunf] at hk
              match k with
              | 0 => exact ⟨items, by simpa using hres, h0, hlt⟩
              | j + 1 =>
                obtain ⟨its, hits, hl⟩ := ih4 j (by omega)
                refine ⟨its, ?_, hl⟩
                have : callIdx + (j + 1) = callIdx + 1 + j := by omega
                rw [this]; exact hits

/-- C1 (counterexample): on a stream whose first response is a
non-success/failed response, the loop halts after a single call, yet
none of the claim's three halting conditions holds at that point — the
budget is not hit and the halting response carries no item page whose
count could be zero or short. -/
theorem c1_counterexample :
    apiCallsMade (fun _ => (ApiResponse.error : ApiResponse Unit)) = 1 ∧
    (1 : Nat) ≠ budget ∧
    ((fun _ => (ApiResponse.error : ApiResponse Unit)) 0).isPage = false := by
  decide

/-- C1 (amended): for every stream of API responses, the pagination loop
of `fetch_listings` makes between 1 and 20 calls and halts exactly when
the last response's page has fewer than 500 items (zero included), or
the 20-call budget is hit, or the last response is a non-success/failed
response — and it never halts earlier: every response it continued past
was a full page of at least 500 items. -/
theorem fetch_pagination_halting {α : Type} (responses : Nat → ApiResponse α) :
    1 ≤ apiCallsMade responses ∧ apiCallsMade responses ≤ budget ∧
    (apiCallsMade responses = budget ∨
      (∃ items, responses (apiCallsMade responses - 1) = ApiResponse.page items ∧
        (items.length = 0 ∨ items.length < pageLimit)) ∨
      responses (apiCallsMade responses - 1) = ApiResponse.error) ∧
    (∀ k, k + 1 < apiCallsMade responses →
      ∃ items, responses k = ApiResponse.page items ∧ pageLimit ≤ items.length) := by
  obtain ⟨h1, h2, h3, h4⟩ :=
    callsLoop_halting responses pageLimit budget 0 (by simp [budget])
  refine ⟨h1, h2, ?_, ?_⟩
  · simpa using h3
  · intro k hk
    obtain ⟨items, hits, hne, hnlt⟩ := h4 k hk
    exact ⟨items, by simpa using hits, by omega⟩

/-- C1 (witness for the amended theorem): the stream that answers one
full page of 500 items and then an empty page makes exactly 2 calls and
satisfies every clause of the amended halting theorem. -/
theorem fetch_pagination_halting_witness :
    1 ≤ apiCallsMade (fun i => if i = 0 then ApiResponse.page (List.replicate 500 (0 : Nat))
        else ApiResponse.page []) ∧
    apiCallsMade (fun i => if i = 0 then ApiResponse.page (List.replicate 500 (0 : Nat))
        else ApiResponse.page []) ≤ budget ∧
    (apiCallsMade (fun i => if i = 0 then ApiResponse.page (List.replicate 500 (0 : Nat))
        else ApiResponse.page []) = budget ∨
      (∃ items, (fun i => if i = 0 then ApiResponse.page (List.replicate 500 (0 : Nat))
          else ApiResponse.page [])
          (apiCallsMade (fun i => if i = 0 then ApiResponse.page (List.replicate 500 (0 : Nat))
            else ApiResponse.page []) - 1) = ApiResponse.page items ∧
        (items.length = 0 ∨ items.length < pageLimit)) ∨
      (fun i => if i = 0 then ApiResponse.page (List.replicate 500 (0 : Nat))
          else ApiResponse.page [])
        (apiCallsMade (fun i => if i = 0 then ApiResponse.page (List.replicate 500 (0 : Nat))
          else ApiResponse.page []) - 1) = ApiResponse.error) ∧
    (∀ k, k + 1 < apiCallsMade (fun i => if i = 0 then ApiResponse.page (List.replicate 500 (0 : Nat))
        else ApiResponse.page []) →
      ∃ items, (fun i => if i = 0 then ApiResponse.page (List.replicate 500 (0 : Nat))
          else ApiResponse.page []) k = ApiResponse.page items ∧ pageLimit ≤ items.length) :=
  fetch_pagination_halting
    (fun i => if i = 0 then ApiResponse.page (List.replicate 500 (0 : Nat))
      else ApiResponse.page [])

/-- Partial-result behaviour of the accumulator loop: if, starting at
call index `callIdx` with accumulator `acc` and positive remaining
budget, the next `k` responses are full pages and the `(k+1)`-st is an
error, the loop returns the accumulator extended by exactly those `k`
pages. -/
theorem fetchLoop_error_partial {α : Type} (responses : Nat → ApiResponse α)
    (pages : Nat → List α) :
    ∀ (k callIdx fuel : Nat) (acc : List α), k < fuel →
    (∀ i, callIdx ≤ i → i < callIdx + k →
      responses i = ApiResponse.page (pages i) ∧ pageLimit ≤ (pages i).length) →
    responses (callIdx + k) = ApiResponse.error →
    fetchLoop responses pageLimit callIdx fuel acc =
      acc ++ ((List.range' callIdx k).map pages).flatten := by
  intro k
  induction k with
  | zero =>
    intro callIdx fuel acc hk _ herr
    obtain ⟨fuel', rfl⟩ : ∃ fuel', fuel = fuel' + 1 :=
      ⟨fuel - 1, by omega⟩
    simp only [Nat.add_zero] at herr
    simp [fetchLoop, herr]
  | succ k ih =>
    intro callIdx fuel acc hk hfull herr
    obtain ⟨fuel', rfl⟩ : ∃ fuel', fuel = fuel' + 1 :=
      ⟨fuel - 1, by omega⟩
    obtain ⟨hpage, hlen⟩ := hfull callIdx (Nat.le_refl _) (by omega)
    have h0 : ¬ (pages callIdx).length = 0 := by
      have : 0 < pageLimit := by simp [pageLimit]
      omega
    have hlt : ¬ (pages callIdx).length < pageLimit := by omega
    have hrec := ih (callIdx + 1) fuel' (acc ++ pages callIdx) (by omega)
      (fun i h1 h2 => hfull i (by omega) (by omega))
      (by have : callIdx + 1 + k = callIdx + (k + 1) := by omega
          rw [this]; exact herr)
    calc fetchLoop responses pageLimit callIdx (fuel' + 1) acc
        = fetchLoop responses pageLimit (callIdx + 1) fuel' (acc ++ pages callIdx) := by
          simp [fetchLoop, hpage, h0, hlt]
      _ = acc ++ ((List.range' callIdx (k + 1)).map pages).flatten := by
          rw [hrec, List.range'_succ]
          simp

/-- C4: a non-success (or otherwise failed) response does not raise —
after `k` full pages (each of at least the 500-item page size) followed
by an error response within the budget, `fetch_listings` halts for the
category and returns exactly the listings accumulated before the error:
the concatenation of the first `k` pages. -/
theorem fetch_listings_error_returns_partial {α : Type}
    (responses : Nat → ApiResponse α) (pages : Nat → List α) (k : Nat)
    (hk : k < budget)
    (hfull : ∀ i, i < k →
      responses i = ApiResponse.page (pages i) ∧ pageLimit ≤ (pages i).length)
    (herr : responses k = ApiResponse.error) :
    fetch_listings responses = ((List.range k).map pages).flatten := by
  have h := fetchLoop_error_partial responses pages k 0 budget [] hk
    (fun i _ h2 => hfull i (by omega)) (by simpa using herr)
  simpa [fetch_listings, List.range_eq_range'] using h

set_option maxRecDepth 10000 in
/-- C4 (witness): one full page of 500 items followed by an error yields
exactly those 500 items. -/
theorem fetch_listings_error_returns_partial_witness :
    fetch_listings (fun i => if i = 0 then ApiResponse.page (List.replicate 500 (7 : Nat))
        else ApiResponse.error) =
      ((List.range 1).map (fun _ => List.replicate 500 (7 : Nat))).flatten :=
  fetch_listings_error_returns_partial
    (fun i => if i = 0 then ApiResponse.page (List.replicate 500 (7 : Nat))
      else ApiResponse.error)
    (fun _ => List.replicate 500 (7 : Nat)) 1 (by decide)
    (by decide) (by decide)

/-- C2 (counterexample): a feature-store row whose metadata JSON is
present but has no `is_active` key — the empty JSON object — is excluded
from training, contradicting the claim that a row with `is_active`
absent defaults to included: the extracted value is Python `None`, and
`None == True` is `False`. -/
theorem trainRowKept_counterexample :
    ([] : List (String × JVal)).lookup "is_active" = none ∧
    trainRowKept (some []) = false := by
  decide

/-- C2 (amended): a row with metadata `is_active=false` is excluded from
training; a row whose metadata cell itself is missing/empty defaults to
included; but a row whose metadata JSON is present without an
`is_active` key is excluded, because the extracted `None` is not equal
to `True`. -/
theorem trainRowKept_is_active (obj : List (String × JVal)) :
    (obj.lookup "is_active" = some (JVal.jbool false) →
      trainRowKept (some obj) = false) ∧
    trainRowKept none = true ∧
    (obj.lookup "is_active" = none → trainRowKept (some obj) = false) := by
  refine ⟨fun h => ?_, rfl, fun h => ?_⟩ <;>
    simp [trainRowKept, extractIsActive, pandasEqTrue, h]

/-- C2 (witness for the amended theorem): metadata `is_active=false`
excludes the row, and a missing metadata cell keeps it. -/
theorem trainRowKept_is_active_witness :
    trainRowKept (some [("is_active", JVal.jbool false)]) = false ∧
    trainRowKept none = true :=
  ⟨(trainRowKept_is_active [("is_active", JVal.jbool false)]).1 (by decide),
    (trainRowKept_is_active []).2.1⟩

/-- C3: the extraction task raises iff both categories returned no
results; on success the returned mapping has a `sales_path` entry
exactly when the sale fetch was non-empty (holding the S3 save result)
and a `rental_path` entry exactly when the rental fetch was non-empty. -/
theorem extract_property_data_spec {α : Type}
    (sales rental : List α) (saveResult : String → Option String) :
    ((∃ e, extract_property_data sales rental saveResult = Except.error e) ↔
      sales.isEmpty ∧ rental.isEmpty) ∧
    (∀ res, extract_property_data sales rental saveResult = Except.ok res →
      res.lookup "sales_path" =
        (if sales.isEmpty then none else some (saveResult "sales")) ∧
      res.lookup "rental_path" =
        (if rental.isEmpty then none else some (saveResult "rental"))) := by
  by_cases hs : sales.isEmpty <;> by_cases hr : rental.isEmpty <;>
    constructor <;>
    simp [extract_property_data, run_extraction, hs, hr, List.lookup]

/-- C3 (witness): one sale listing and no rental listings completes with
a mapping holding exactly the `sales_path` entry. -/
theorem extract_property_data_spec_witness :
    ((∃ e, extract_property_data [0] ([] : List Nat) (fun _ => some "s3://p") =
        Except.error e) ↔ ([0] : List Nat).isEmpty ∧ ([] : List Nat).isEmpty) ∧
    (∀ res, extract_property_data [0] ([] : List Nat) (fun _ => some "s3://p") =
        Except.ok res →
      res.lookup "sales_path" =
        (if ([0] : List Nat).isEmpty then none else some ((fun _ => some "s3://p") "sales")) ∧
      res.lookup "rental_path" =
        (if ([] : List Nat).isEmpty then none
         else some ((fun _ => some "s3://p") "rental"))) :=
  extract_property_data_spec [0] [] (fun _ => some "s3://p")

/-- C9: in both training and inference, `bath_to_bed_ratio` is the same
function of the row; it is missing whenever bedrooms or bathrooms is
missing or bedrooms is not positive, and otherwise equals
bathrooms / bedrooms — the division is only reached under the
positive-denominator guard. -/
theorem bathToBedRatio_spec (bathrooms bedrooms : Option ℚ) :
    bathToBedRatioTrain bathrooms bedrooms = bathToBedRatioPred bathrooms bedrooms ∧
    (bedrooms = none ∨ bathrooms = none ∨ (∃ b, bedrooms = some b ∧ b ≤ 0) →
      bathToBedRatioTrain bathrooms bedrooms = none ∧
      bathToBedRatioPred bathrooms bedrooms = none) ∧
    (∀ b t, bedrooms = some b → bathrooms = some t → 0 < b →
      bathToBedRatioTrain bathrooms bedrooms = some (t / b) ∧
      bathToBedRatioPred bathrooms bedrooms = some (t / b)) := by
  refine ⟨rfl, fun h => ?_, fun b t hb ht hpos => ?_⟩
  · rcases h with h | h | ⟨b, hb, hble⟩
    · subst h; constructor <;> rfl
    · subst h
      cases bedrooms <;> constructor <;> rfl
    · subst hb
      cases bathrooms <;>
        simp [bathToBedRatioTrain, bathToBedRatioPred, not_lt.mpr hble]
  · subst hb; subst ht
    simp [bathToBedRatioTrain, bathToBedRatioPred, hpos]

/-- C9 (witness): 3 bathrooms and 2 bedrooms give ratio 3/2 in both
pipelines; 3 bathrooms and 0 bedrooms give a missing value. -/
theorem bathToBedRatio_spec_witness :
    (bathToBedRatioTrain (some 3) (some 2) = some (3 / 2) ∧
      bathToBedRatioPred (some 3) (some 2) = some (3 / 2)) ∧
    (bathToBedRatioTrain (some 3) (some 0) = none ∧
      bathToBedRatioPred (some 3) (some 0) = none) :=
  ⟨(bathToBedRatio_spec (some 3) (some 2)).2.2 2 3 rfl rfl (by norm_num),
    (bathToBedRatio_spec (some 3) (some 0)).2.1
      (Or.inr (Or.inr ⟨0, rfl, le_refl 0⟩))⟩

/-- C7: when the IQR filter succeeds, the retained rows are a sublist of
the input (rows are removed, never altered or clipped), and every
retained row's target is a present value lying within
`[Q1 − 1.5·IQR, Q3 + 1.5·IQR]`, with `Q1`, `Q3` and `IQR` computed on
the pre-filter target distribution. -/
theorem iqrFilterTarget_spec {α : Type} (rows kept : List (TrainRow α))
    (h : iqrFilterTarget rows = Except.ok kept) :
    kept.Sublist rows ∧
    ∀ r ∈ kept, ∃ x, r.1 = some x ∧
      rentQ1 rows - 1.5 * (rentQ3 rows - rentQ1 rows) ≤ x ∧
      x ≤ rentQ3 rows + 1.5 * (rentQ3 rows - rentQ1 rows) := by
  unfold iqrFilterTarget at h
  split at h
  · exact absurd h (by simp)
  · obtain rfl : rows.filter _ = kept := by injection h
    refine ⟨List.filter_sublist rows, fun r hr => ?_⟩
    obtain ⟨-, hp⟩ := List.mem_filter.1 hr
    match hx : r.1 with
    | none => rw [hx] at hp; simp at hp
    | some x =>
      rw [hx] at hp
      simp only [Bool.and_eq_true, decide_eq_true_eq] at hp
      exact ⟨x, rfl, hp.1, hp.2⟩

/-- C7 (witness): on targets 10, 12, 11, 1000 and one missing target,
the filter keeps exactly the rows with targets 10, 12, 11 (the outlier
1000 and the missing target are dropped), and each retained target lies
within the pre-filter IQR fences. -/
theorem iqrFilterTarget_spec_witness :
    ([((some 10 : Option ℚ), (0 : Nat)), (some 12, 1), (some 11, 2)].Sublist
      [((some 10 : Option ℚ), (0 : Nat)), (some 12, 1), (some 11, 2),
        (some 1000, 3), (none, 4)]) ∧
    ∀ r ∈ [((some 10 : Option ℚ), (0 : Nat)), (some 12, 1), (some 11, 2)],
      ∃ x, r.1 = some x ∧
        rentQ1 [((some 10 : Option ℚ), (0 : Nat)), (some 12, 1), (some 11, 2),
            (some 1000, 3), (none, 4)] -
          1.5 * (rentQ3 [((some 10 : Option ℚ), (0 : Nat)), (some 12, 1), (some 11, 2),
            (some 1000, 3), (none, 4)] -
            rentQ1 [((some 10 : Option ℚ), (0 : Nat)), (some 12, 1), (some 11, 2),
            (some 1000, 3), (none, 4)]) ≤ x ∧
        x ≤ rentQ3 [((some 10 : Option ℚ), (0 : Nat)), (some 12, 1), (some 11, 2),
            (some 1000, 3), (none, 4)] +
          1.5 * (rentQ3 [((some 10 : Option ℚ), (0 : Nat)), (some 12, 1), (some 11, 2),
            (some 1000, 3), (none, 4)] -
            rentQ1 [((some 10 : Option ℚ), (0 : Nat)), (some 12, 1), (some 11, 2),
            (some 1000, 3), (none, 4)]) :=
  iqrFilterTarget_spec
    [((some 10 : Option ℚ), (0 : Nat)), (some 12, 1), (some 11, 2),
      (some 1000, 3), (none, 4)]
    [((some 10 : Option ℚ), (0 : Nat)), (some 12, 1), (some 11, 2)]
    (by rfl)

/-- Filter condition of the heuristic insert, split into its two
conjuncts. -/
theorem simplified_filter_mem (fct : List FctRow) (predTable : List PredRow)
    (l : FctRow)
    (hl : l ∈ fct.filter (fun l =>
      decide (some l.load_date = maxLoadDate fct) &&
        !(predTable.any (fun p => p.listing_sk == l.listing_sk)))) :
    l ∈ fct ∧ some l.load_date = maxLoadDate fct ∧
      ∀ p ∈ predTable, p.listing_sk ≠ l.listing_sk := by
  obtain ⟨hmem, hcond⟩ := List.mem_filter.1 hl
  simp only [Bool.and_eq_true, decide_eq_true_eq, Bool.not_eq_true',
    List.any_eq_false, beq_iff_eq] at hcond
  exact ⟨hmem, hcond.1, hcond.2⟩

/-- C5: when the registry yields no usable model (the load raised), the
predictor runs the heuristic fallback and still populates
`PREDICTED_RENT_PRICES`: every inserted row carries the most recent load
date, a predicted rent of 0.005 times its sale price, and model version
`simplified-model`; and every most-recent-load-date listing whose
surrogate key has no existing prediction row receives such a row. -/
theorem predict_fallback_spec (fct : List FctRow) (predTable : List PredRow) :
    ∃ inserted,
      predict_rent_prices none fct predTable = predTable ++ inserted ∧
      (∀ r ∈ inserted,
        r.model_version = "simplified-model" ∧
        r.predicted_rent_price = r.sale_price.map (fun s => s * 0.005) ∧
        some r.load_date = maxLoadDate fct) ∧
      (∀ l ∈ fct, some l.load_date = maxLoadDate fct →
        (∀ p ∈ predTable, p.listing_sk ≠ l.listing_sk) →
        toSimpleRow l ∈ inserted) := by
  refine ⟨_, rfl, fun r hr => ?_, fun l hl hd hnp => ?_⟩
  · obtain ⟨l, hlmem, rfl⟩ := List.mem_map.1 hr
    obtain ⟨-, hdate, -⟩ := simplified_filter_mem fct predTable l hlmem
    exact ⟨rfl, by cases l.sale_price <;> rfl, hdate⟩
  · refine List.mem_map_of_mem _ (List.mem_filter.2 ⟨hl, ?_⟩)
    simp only [Bool.and_eq_true, decide_eq_true_eq, Bool.not_eq_true',
      List.any_eq_false, beq_iff_eq]
    exact ⟨hd, hnp⟩

/-- C5 (witness): with an empty prediction table and one listing at the
most recent load date, the fallback inserts the heuristic row for it. -/
theorem predict_fallback_spec_witness :
    ∃ inserted,
      predict_rent_prices none
          [{ listing_sk := "sk1", listing_id := "id1",
             sale_price := some 1000, load_date := 5 }] [] =
        [] ++ inserted ∧
      (∀ r ∈ inserted,
        r.model_version = "simplified-model" ∧
        r.predicted_rent_price = r.sale_price.map (fun s => s * 0.005) ∧
        some r.load_date = maxLoadDate
          [{ listing_sk := "sk1", listing_id := "id1",
             sale_price := some 1000, load_date := 5 }]) ∧
      (∀ l ∈ [({ listing_sk := "sk1", listing_id := "id1", sale_price := some 1000, load_date := 5 } : FctRow)],
        some l.load_date = maxLoadDate
          [{ listing_sk := "sk1", listing_id := "id1",
             sale_price := some 1000, load_date := 5 }] →
        (∀ p ∈ ([] : List PredRow), p.listing_sk ≠ l.listing_sk) →
        toSimpleRow l ∈ inserted) :=
  predict_fallback_spec
    [{ listing_sk := "sk1", listing_id := "id1",
       sale_price := some 1000, load_date := 5 }] []

/-- C10: the heuristic fallback never deletes or modifies existing rows
of `PREDICTED_RENT_PRICES` — the old table is an unchanged prefix of the
result — and, because its insert is guarded by `NOT EXISTS` on
`LISTING_SK` over the whole table, every appended row belongs to a
listing whose surrogate key had no prediction row at all under any load
date. -/
theorem simplified_prediction_frame (fct : List FctRow) (predTable : List PredRow) :
    (simplified_prediction fct predTable).take predTable.length = predTable ∧
    ∀ r ∈ (simplified_prediction fct predTable).drop predTable.length,
      (∀ p ∈ predTable, p.listing_sk ≠ r.listing_sk) ∧
      some r.load_date = maxLoadDate fct ∧
      r.model_version = "simplified-model" := by
  constructor
  · exact List.take_left predTable _
  · intro r hr
    simp only [simplified_prediction] at hr
    rw [List.drop_left] at hr
    obtain ⟨l, hlmem, rfl⟩ := List.mem_map.1 hr
    obtain ⟨-, hdate, hnp⟩ := simplified_filter_mem fct predTable l hlmem
    exact ⟨fun p hp => hnp p hp, hdate, rfl⟩

/-- C10 (witness): with an existing prediction row for key `a` (under an
older load date) and listings `a`, `b` at the latest date, the fallback
leaves the existing row untouched and only ever appends rows for keys
without any existing prediction row. -/
theorem simplified_prediction_frame_witness :
    (simplified_prediction
        [{ listing_sk := "a", listing_id := "ia", sale_price := some 200, load_date := 3 },
         { listing_sk := "b", listing_id := "ib", sale_price := some 400, load_date := 3 }]
        [{ listing_sk := "a", listing_id := "ia", sale_price := some 200,
           predicted_rent_price := some 1, rent_to_price_ratio := some 1,
           load_date := 2, model_version := "v0" }]).take 1 =
      [{ listing_sk := "a", listing_id := "ia", sale_price := some 200,
         predicted_rent_price := some 1, rent_to_price_ratio := some 1,
         load_date := 2, model_version := "v0" }] ∧
    ∀ r ∈ (simplified_prediction
        [{ listing_sk := "a", listing_id := "ia", sale_price := some 200, load_date := 3 },
         { listing_sk := "b", listing_id := "ib", sale_price := some 400, load_date := 3 }]
        [{ listing_sk := "a", listing_id := "ia", sale_price := some 200,
           predicted_rent_price := some 1, rent_to_price_ratio := some 1,
           load_date := 2, model_version := "v0" }]).drop 1,
      (∀ p ∈ [({ listing_sk := "a", listing_id := "ia", sale_price := some 200, predicted_rent_price := some 1, rent_to_price_ratio := some 1, load_date := 2, model_version := "v0" } : PredRow)],
        p.listing_sk ≠ r.listing_sk) ∧
      some r.load_date = maxLoadDate
        [{ listing_sk := "a", listing_id := "ia", sale_price := some 200, load_date := 3 },
         { listing_sk := "b", listing_id := "ib", sale_price := some 400, load_date := 3 }] ∧
      r.model_version = "simplified-model" :=
  simplified_prediction_frame
    [{ listing_sk := "a", listing_id := "ia", sale_price := some 200, load_date := 3 },
     { listing_sk := "b", listing_id := "ib", sale_price := some 400, load_date := 3 }]
    [{ listing_sk := "a", listing_id := "ia", sale_price := some 200,
       predicted_rent_price := some 1, rent_to_price_ratio := some 1,
       load_date := 2, model_version := "v0" }]

/-- Every listing selected by the predictor's query carries the most
recent load date. -/
theorem saleListingsAtMaxDate_date (fct : List FctRow) :
    ∀ l ∈ saleListingsAtMaxDate fct, some l.load_date = maxLoadDate fct := by
  intro l hl
  have h := (List.mem_filter.1 hl).2
  simp only [Bool.and_eq_true, decide_eq_true_eq] at h
  exact h.2

/-- Unfolding of the model path in its non-empty case. -/
theorem modelPredict_eq (model : FctRow → ℚ) (version : String)
    (fct : List FctRow) (predTable : List PredRow)
    (hne : saleListingsAtMaxDate fct ≠ []) :
    modelPredict model version fct predTable =
      predTable.filter (fun p => decide (some p.load_date ≠ maxLoadDate fct)) ++
        (saleListingsAtMaxDate fct).map (toModelPredRow model version) := by
  simp only [modelPredict]
  rw [if_neg]
  simp [List.isEmpty_iff, hne]

/-- C6: the predictor's delete-then-insert for the most recent load date
is idempotent — running the model path a second time on its own output
yields the same table — and, when the selected listings have pairwise
distinct surrogate keys, the resulting table holds exactly one row per
`LISTING_SK` for that load date: its rows at that date are in bijection
with the selected listings and their keys are pairwise distinct. -/
theorem modelPredict_idempotent_spec (model : FctRow → ℚ) (version : String)
    (fct : List FctRow) (predTable : List PredRow)
    (hN : ((saleListingsAtMaxDate fct).map FctRow.listing_sk).Nodup)
    (hne : saleListingsAtMaxDate fct ≠ []) :
    modelPredict model version fct (modelPredict model version fct predTable) =
      modelPredict model version fct predTable ∧
    ((modelPredict model version fct predTable).filter
        (fun r => decide (some r.load_date = maxLoadDate fct))).map
      PredRow.listing_sk =
      (saleListingsAtMaxDate fct).map FctRow.listing_sk ∧
    (((modelPredict model version fct predTable).filter
        (fun r => decide (some r.load_date = maxLoadDate fct))).map
      PredRow.listing_sk).Nodup := by
  have hdel : ∀ l ∈ saleListingsAtMaxDate fct,
      (decide (some (toModelPredRow model version l).load_date ≠ maxLoadDate fct)) = false := by
    intro l hl
    simp [toModelPredRow, saleListingsAtMaxDate_date fct l hl]
  have hkeep : ∀ l ∈ saleListingsAtMaxDate fct,
      (decide (some (toModelPredRow model version l).load_date = maxLoadDate fct)) = true := by
    intro l hl
    simp [toModelPredRow, saleListingsAtMaxDate_date fct l hl]
  have hmapped : ((saleListingsAtMaxDate fct).map (toModelPredRow model version)).filter
      (fun p => decide (some p.load_date ≠ maxLoadDate fct)) = [] := by
    rw [List.filter_eq_nil_iff]
    intro r hr
    obtain ⟨l, hl, rfl⟩ := List.mem_map.1 hr
    simp [hdel l hl]
  have hmapped' : ((saleListingsAtMaxDate fct).map (toModelPredRow model version)).filter
      (fun p => decide (some p.load_date = maxLoadDate fct)) =
      (saleListingsAtMaxDate fct).map (toModelPredRow model version) := by
    rw [List.filter_eq_self]
    intro r hr
    obtain ⟨l, hl, rfl⟩ := List.mem_map.1 hr
    exact hkeep l hl
  have hsk : (((saleListingsAtMaxDate fct).map (toModelPredRow model version)).map
      PredRow.listing_sk) = (saleListingsAtMaxDate fct).map FctRow.listing_sk := by
    rw [List.map_map]
    exact List.map_congr_left fun l _ => rfl
  refine ⟨?_, ?_, ?_⟩
  · rw [modelPredict_eq model version fct predTable hne,
      modelPredict_eq model version fct _ hne,
      List.filter_append, hmapped, List.append_nil, List.filter_filter]
    congr 1
    apply List.filter_congr
    intro p _
    simp
  · rw [modelPredict_eq model version fct predTable hne, List.filter_append,
      hmapped', List.filter_filter]
    have hnil : predTable.filter (fun p =>
        decide (some p.load_date = maxLoadDate fct) &&
          decide (some p.load_date ≠ maxLoadDate fct)) = [] := by
      rw [List.filter_eq_nil_iff]
      intro p _
      by_cases h : some p.load_date = maxLoadDate fct <;> simp [h]
    rw [hnil, List.nil_append, hsk]
  · rw [modelPredict_eq model version fct predTable hne, List.filter_append,
      hmapped', List.filter_filter]
    have hnil : predTable.filter (fun p =>
        decide (some p.load_date = maxLoadDate fct) &&
          decide (some p.load_date ≠ maxLoadDate fct)) = [] := by
      rw [List.filter_eq_nil_iff]
      intro p _
      by_cases h : some p.load_date = maxLoadDate fct <;> simp [h]
    rw [hnil, List.nil_append, hsk]
    exact hN

/-- C6 (witness): two distinct-key listings at load date 7 and a stale
prediction row for that date — re-running replaces the rows once, a
second run changes nothing, and the date-7 rows end with exactly the
keys `a`, `b`, pairwise distinct. -/
theorem modelPredict_idempotent_spec_witness :
    modelPredict (fun _ => (700 : ℚ)) "v1"
        [{ listing_sk := "a", listing_id := "ia", sale_price := some 1000, load_date := 7 },
         { listing_sk := "b", listing_id := "ib", sale_price := some 2000, load_date := 7 }]
        (modelPredict (fun _ => (700 : ℚ)) "v1"
          [{ listing_sk := "a", listing_id := "ia", sale_price := some 1000, load_date := 7 },
           { listing_sk := "b", listing_id := "ib", sale_price := some 2000, load_date := 7 }]
          [{ listing_sk := "a", listing_id := "ia", sale_price := some 1000,
             predicted_rent_price := some 1, rent_to_price_ratio := some 1,
             load_date := 7, model_version := "v0" }]) =
      modelPredict (fun _ => (700 : ℚ)) "v1"
        [{ listing_sk := "a", listing_id := "ia", sale_price := some 1000, load_date := 7 },
         { listing_sk := "b", listing_id := "ib", sale_price := some 2000, load_date := 7 }]
        [{ listing_sk := "a", listing_id := "ia", sale_price := some 1000,
           predicted_rent_price := some 1, rent_to_price_ratio := some 1,
           load_date := 7, model_version := "v0" }] ∧
    ((modelPredict (fun _ => (700 : ℚ)) "v1"
        [{ listing_sk := "a", listing_id := "ia", sale_price := some 1000, load_date := 7 },
         { listing_sk := "b", listing_id := "ib", sale_price := some 2000, load_date := 7 }]
        [{ listing_sk := "a", listing_id := "ia", sale_price := some 1000,
           predicted_rent_price := some 1, rent_to_price_ratio := some 1,
           load_date := 7, model_version := "v0" }]).filter
        (fun r => decide (some r.load_date = maxLoadDate
          [{ listing_sk := "a", listing_id := "ia", sale_price := some 1000, load_date := 7 },
           { listing_sk := "b", listing_id := "ib", sale_price := some 2000, load_date := 7 }]))).map
      PredRow.listing_sk =
      (saleListingsAtMaxDate
        [{ listing_sk := "a", listing_id := "ia", sale_price := some 1000, load_date := 7 },
         { listing_sk := "b", listing_id := "ib", sale_price := some 2000, load_date := 7 }]).map
      FctRow.listing_sk ∧
    (((modelPredict (fun _ => (700 : ℚ)) "v1"
        [{ listing_sk := "a", listing_id := "ia", sale_price := some 1000, load_date := 7 },
         { listing_sk := "b", listing_id := "ib", sale_price := some 2000, load_date := 7 }]
        [{ listing_sk := "a", listing_id := "ia", sale_price := some 1000,
           predicted_rent_price := some 1, rent_to_price_ratio := some 1,
           load_date := 7, model_version := "v0" }]).filter
        (fun r => decide (some r.load_date = maxLoadDate
          [{ listing_sk := "a", listing_id := "ia", sale_price := some 1000, load_date := 7 },
           { listing_sk := "b", listing_id := "ib", sale_price := some 2000, load_date := 7 }]))).map
      PredRow.listing_sk).Nodup :=
  modelPredict_idempotent_spec (fun _ => (700 : ℚ)) "v1"
    [{ listing_sk := "a", listing_id := "ia", sale_price := some 1000, load_date := 7 },
     { listing_sk := "b", listing_id := "ib", sale_price := some 2000, load_date := 7 }]
    [{ listing_sk := "a", listing_id := "ia", sale_price := some 1000,
       predicted_rent_price := some 1, rent_to_price_ratio := some 1,
       load_date := 7, model_version := "v0" }]
    (by decide) (by decide)

/-- Association lookup distributes over append. -/
theorem lookup_append {β : Type} (l1 l2 : List (String × β)) (c : String) :
    (l1 ++ l2).lookup c =
      match l1.lookup c with
      | some v => some v
      | none => l2.lookup c := by
  induction l1 with
  | nil => simp [List.lookup]
  | cons kv t ih =>
    obtain ⟨k, v⟩ := kv
    by_cases h : c = k
    · simp [List.lookup, h, ih]
    · have hb : (c == k) = false := beq_eq_false_iff_ne.2 h
      simp [List.lookup, hb, ih]

/-- `addMissingCols` only appends columns, so an existing column's value
is untouched. -/
theorem addMissingCols_preserves (marker : Cell) (nrows : Nat) :
    ∀ (cs : List String) (frame : List (String × List Cell)) (c : String),
    (frame.lookup c).isSome →
    (addMissingCols marker nrows cs frame).lookup c = frame.lookup c := by
  intro cs
  induction cs with
  | nil => intro frame c _; rfl
  | cons c' cs ih =>
    intro frame c hc
    obtain ⟨v, hv⟩ := Option.isSome_iff_exists.1 hc
    have happ : (frame ++ [(c', List.replicate nrows marker)]).lookup c =
        frame.lookup c := by
      rw [lookup_append, hv]
    simp only [addMissingCols]
    split
    · exact ih frame c hc
    · rw [ih _ c (by rw [happ]; exact hc), happ]

/-- A column untouched by `addMissingCols` (not in the feature list)
keeps its lookup result, present or absent. -/
theorem addMissingCols_not_mem (marker : Cell) (nrows : Nat) :
    ∀ (cs : List String) (frame : List (String × List Cell)) (c : String),
    c ∉ cs →
    (addMissingCols marker nrows cs frame).lookup c = frame.lookup c := by
  intro cs
  induction cs with
  | nil => intro frame c _; rfl
  | cons c' cs ih =>
    intro frame c hc
    have hne : c' ≠ c := fun h => hc (h ▸ List.mem_cons_self c' cs)
    have hcs : c ∉ cs := fun h => hc (List.mem_cons_of_mem c' h)
    simp only [addMissingCols]
    split
    · exact ih frame c hcs
    · rw [ih _ c hcs, lookup_append]
      have hb : (c == c') = false := beq_eq_false_iff_ne.2 fun h => hne h.symm
      cases hl : frame.lookup c with
      | some v => rfl
      | none => simp [List.lookup, hb]

/-- A feature absent from the frame is appended as a full column of the
given marker. -/
theorem addMissingCols_fills (marker : Cell) (nrows : Nat) :
    ∀ (cs : List String) (frame : List (String × List Cell)) (c : String),
    c ∈ cs → frame.lookup c = none →
    (addMissingCols marker nrows cs frame).lookup c =
      some (List.replicate nrows marker) := by
  intro cs
  induction cs with
  | nil => intro frame c hc _; cases hc
  | cons c' cs ih =>
    intro frame c hc hnone
    simp only [addMissingCols]
    by_cases hec : c' = c
    · subst hec
      rw [if_neg (by simp [hnone])]
      have hnew : (frame ++ [(c', List.replicate nrows marker)]).lookup c' =
          some (List.replicate nrows marker) := by
        rw [lookup_append, hnone]; simp [List.lookup]
      rw [addMissingCols_preserves marker nrows cs _ c' (by simp [hnew]), hnew]
    · have hcs : c ∈ cs := by
        rcases List.mem_cons.1 hc with h | h
        · exact absurd h.symm hec
        · exact h
      split
      · exact ih frame c hcs hnone
      · refine ih _ c hcs ?_
        rw [lookup_append, hnone]
        have hb : (c == c') = false := beq_eq_false_iff_ne.2 fun h => hec h.symm
        simp [List.lookup, hb]

/-- Every feature in the list has a column after `addMissingCols`. -/
theorem addMissingCols_isSome (marker : Cell) (nrows : Nat)
    (cs : List String) (frame : List (String × List Cell)) (c : String)
    (hc : c ∈ cs) :
    ((addMissingCols marker nrows cs frame).lookup c).isSome := by
  cases hl : frame.lookup c with
  | some v =>
    rw [addMissingCols_preserves marker nrows cs frame c (by simp [hl]), hl]
    rfl
  | none =>
    rw [addMissingCols_fills marker nrows cs frame c hc hl]
    rfl

/-- Column selection succeeds when every requested column is present. -/
theorem selectCols_isSome (frame : List (String × List Cell)) :
    ∀ cols : List String, (∀ c ∈ cols, (frame.lookup c).isSome) →
    (selectCols frame cols).isSome := by
  intro cols
  induction cols with
  | nil => intro _; rfl
  | cons c cs ih =>
    intro h
    obtain ⟨v, hv⟩ := Option.isSome_iff_exists.1 (h c (List.mem_cons_self c cs))
    obtain ⟨rest, hrest⟩ := Option.isSome_iff_exists.1
      (ih fun c' hc' => h c' (List.mem_cons_of_mem c hc'))
    simp [selectCols, hv, hrest]

/-- C8: the predictor never raises on a manifest feature missing from
the inference frame — projecting onto the manifest columns after the
back-fill succeeds — and each missing feature is back-filled with a full
column of the matching missing-value marker: `NaN` for a numerical
feature, `None` for a categorical one. -/
theorem ensureModelFeatures_spec (frame : List (String × List Cell))
    (nrows : Nat) (numerical categorical : List String) :
    (selectCols (ensureModelFeatures nrows numerical categorical frame)
      (numerical ++ categorical)).isSome ∧
    (∀ c ∈ numerical, frame.lookup c = none →
      (ensureModelFeatures nrows numerical categorical frame).lookup c =
        some (List.replicate nrows Cell.nanCell)) ∧
    (∀ c ∈ categorical, c ∉ numerical → frame.lookup c = none →
      (ensureModelFeatures nrows numerical categorical frame).lookup c =
        some (List.replicate nrows Cell.noneCell)) := by
  refine ⟨?_, fun c hc hnone => ?_, fun c hc hnum hnone => ?_⟩
  · apply selectCols_isSome
    intro c hc
    rcases List.mem_append.1 hc with h | h
    · have h1 := addMissingCols_isSome Cell.nanCell nrows numerical frame c h
      unfold ensureModelFeatures
      obtain ⟨v, hv⟩ := Option.isSome_iff_exists.1 h1
      rw [addMissingCols_preserves Cell.noneCell nrows categorical _ c (by simp [hv])]
      exact h1
    · exact addMissingCols_isSome Cell.noneCell nrows categorical _ c h
  · unfold ensureModelFeatures
    have h1 := addMissingCols_fills Cell.nanCell nrows numerical frame c hc hnone
    rw [addMissingCols_preserves Cell.noneCell nrows categorical _ c (by simp [h1]), h1]
  · unfold ensureModelFeatures
    refine addMissingCols_fills Cell.noneCell nrows categorical _ c hc ?_
    rw [addMissingCols_not_mem Cell.nanCell nrows numerical frame c hnum]
    exact hnone

/-- C8 (witness): with one data column `sale_price`, the manifest
features `property_age` (numerical) and `city` (categorical) are
back-filled with `NaN` and `None` columns respectively, and the
projection onto the manifest succeeds. -/
theorem ensureModelFeatures_spec_witness :
    (selectCols (ensureModelFeatures 1 ["sale_price", "property_age"] ["city"]
        [("sale_price", [Cell.numCell 100])])
      (["sale_price", "property_age"] ++ ["city"])).isSome ∧
    (ensureModelFeatures 1 ["sale_price", "property_age"] ["city"]
        [("sale_price", [Cell.numCell 100])]).lookup "property_age" =
      some (List.replicate 1 Cell.nanCell) ∧
    (ensureModelFeatures 1 ["sale_price", "property_age"] ["city"]
        [("sale_price", [Cell.numCell 100])]).lookup "city" =
      some (List.replicate 1 Cell.noneCell) :=
  ⟨(ensureModelFeatures_spec [("sale_price", [Cell.numCell 100])] 1
      ["sale_price", "property_age"] ["city"]).1,
    (ensureModelFeatures_spec [("sale_price", [Cell.numCell 100])] 1
      ["sale_price", "property_age"] ["city"]).2.1 "property_age"
      (by decide) (by decide),
    (ensureModelFeatures_spec [("sale_price", [Cell.numCell 100])] 1
      ["sale_price", "property_age"] ["city"]).2.2 "city"
      (by decide) (by decide) (by decide)⟩

end RealtyLens
